import Mathlib

/-!  Shallow embedding of the tornado-unity IPC core (src/unity).

Pure-functional translation of:
  * src/unity/endpoint.py — EndPoint.remote_call, EndPoint._on_message,
    SubProcess._on_message, SubProcess._check_ping, SubProcess.__init__/start;
  * src/unity/__init__.py — Service._on_router, Service.stop,
    Service._create_process;
  * src/unity/configs.py — ModuleConfig.__getattr__.

Python side effects become explicit state passing; logging and process
operations become an effect list; `queue.Full` on a bounded queue becomes a
capacity check.  Debug-only logging (guarded by self._debug) is omitted: it
changes no state and no claim mentions it. -/

/-- Python values carried in envelopes: payloads, results and error
descriptors (exception objects are modelled as `exc` with a message). -/
inductive Val where
  | str : String → Val
  | num : Nat → Val
  | exc : String → Val
  deriving DecidableEq

/-- `future_id = (id(future), time())` in `EndPoint.remote_call`: a pair of an
object identity and a timestamp tick, used only as a decidable-equality key by
the dispatch code. -/
abbrev FutureId := Nat × Nat

/-- The four wire shapes of src/unity plus a catch-all for any other tag
(`_on_message` branches on `message[0]`, the tag string; a tuple whose tag is
none of the four falls through every branch). -/
inductive Envelope where
  | ping
  | message (payload : Val)
  | call (method : String) (args : List Val) (kwargs : List (String × Val))
      (futureId : FutureId) (replyTo : String)
  | future (futureId : FutureId) (hasResult : Bool) (result : Val)
  | unknown (tag : String)
  deriving DecidableEq

/-- `message[0]`: the tag string at the head of the envelope tuple. -/
def Envelope.tag : Envelope → String
  | .ping => "PING"
  | .message _ => "MESSAGE"
  | .call _ _ _ _ _ => "CALL"
  | .future _ _ _ => "FUTURE"
  | .unknown t => t

/-- Association-list lookup, modelling Python dict indexing / `dict.get`. -/
def alookup {α β : Type} [DecidableEq α] (k : α) : List (α × β) → Option β
  | [] => none
  | (k2, v) :: rest => if k2 = k then some v else alookup k rest

/-- Association-list write, modelling Python dict assignment `d[k] = v`
(overwrite when present, append when absent). -/
def aset {α β : Type} [DecidableEq α] (k : α) (v : β) : List (α × β) → List (α × β)
  | [] => [(k, v)]
  | (k2, v2) :: rest => if k2 = k then (k, v) :: rest else (k2, v2) :: aset k v rest

theorem alookup_aset_self {α β : Type} [DecidableEq α] (k : α) (v : β)
    (l : List (α × β)) : alookup k (aset k v l) = some v := by
  induction l with
  | nil => simp [aset, alookup]
  | cons hd tl ih =>
    obtain ⟨k2, v2⟩ := hd
    by_cases h : k2 = k
    · simp [aset, alookup, h]
    · simp [aset, alookup, h, ih]

theorem alookup_aset_ne {α β : Type} [DecidableEq α] {k k2 : α} (v : β)
    (l : List (α × β)) (h : k2 ≠ k) :
    alookup k (aset k2 v l) = alookup k l := by
  induction l with
  | nil => simp [aset, alookup, h]
  | cons hd tl ih =>
    obtain ⟨k3, v3⟩ := hd
    by_cases h3 : k3 = k2
    · subst h3
      simp [aset, alookup, h]
    · simp [aset, alookup, h3, ih]

/-- State of one tornado `Future` object: fresh, `set_result`, or
`set_exception`. -/
inductive FutureState where
  | pending
  | result (v : Val)
  | failed (e : Val)
  deriving DecidableEq

/-- Observable effects of the dispatch code: log lines, the `on_message` user
hook, and process/loop operations of the supervisor and worker. -/
inductive Effect where
  | logWarning (msg : String) : Effect
  | logError (msg : String) : Effect
  | userOnMessage (payload : Val) : Effect
  | terminate (pid : Nat) : Effect
  | spawnProcess (name : String) : Effect
  | addRespawnHandler (name : String) : Effect
  | ioloopStop : Effect
  | assertFailed : Effect
  deriving DecidableEq

/-- State of one `EndPoint`: the key set of `self._pendings`, the state of
every `Future` object ever stored there (keyed by its `future_id`; the dict
value is a reference to the object, so resolving the returned future and
resolving the stored one are the same write), and the shared router queue
(`self._router`) with its capacity. -/
structure EndPointState where
  pendingIds : List FutureId
  futures : List (FutureId × FutureState)
  routerQ : List (String × Envelope)
  routerCap : Nat
  deriving DecidableEq

/-- `self._router.put_nowait(message)`: append when below capacity, report
`queue.Full` otherwise. -/
def routerPut (st : EndPointState) (recipient : String) (e : Envelope) :
    EndPointState × Bool :=
  if st.routerQ.length < st.routerCap then
    ({ st with routerQ := st.routerQ ++ [(recipient, e)] }, true)
  else (st, false)

/-- Key-set insertion for `self._pendings[future_id] = future`. -/
def insertId (fid : FutureId) (l : List FutureId) : List FutureId :=
  if fid ∈ l then l else fid :: l

/-- Key-set removal for `self._pendings.pop(future_id, None)`. -/
def removeId (fid : FutureId) (l : List FutureId) : List FutureId :=
  l.filter (fun x => x ≠ fid)

/-- The exception object raised by `put_nowait` on a full queue and stored by
`future.set_exception(exc)`. -/
def queueFullExc : Val := .exc "queue.Full"

def remoteCallFullMsg : String := "Cannot remote call, router query is full"

def futureResultFullMsg : String := "Cannot send future result, router query is full"

def futureNotFoundMsg : String := "Future with id not found but result for ut received"

/-- A local method reachable by `getattr(self, name, None)`: takes args and
kwargs, returns normally (`ok`) or raises (`error`). -/
abbrev Method := List Val → List (String × Val) → Except Val Val

/-- The endpoint's callable attributes, by name; `none` models
`getattr(self, name, None) is None`. -/
abbrev Methods := String → Option Method

/-- `EndPoint.remote_call` (endpoint.py lines 44-56): create a future, store
it under `future_id` in `_pendings`, try to enqueue the CALL envelope; on
`queue.Full` set the exception on the future (the pending entry aliases the
same object) and log.  `fid` is the generated `(id(future), time())` pair. -/
def EndPoint.remote_call (st : EndPointState) (selfName recipient method : String)
    (args : List Val) (kwargs : List (String × Val)) (fid : FutureId) :
    EndPointState × List Effect :=
  let st1 : EndPointState :=
    { st with pendingIds := insertId fid st.pendingIds,
              futures := aset fid .pending st.futures }
  let put := routerPut st1 recipient (.call method args kwargs fid selfName)
  if put.2 then (put.1, [])
  else
    ({ st1 with futures := aset fid (.failed queueFullExc) st1.futures },
     [.logError remoteCallFullMsg])

/-- `EndPoint._on_message` (endpoint.py lines 64-95).  The argument is the
raw channel message: `none` models a falsy message (`if message and ...`).
MESSAGE delivers to the user hook; FUTURE pops the pending slot and resolves
the stored future, or warns when the slot is gone; CALL looks the method up,
captures any raised error as the result, and tries to enqueue the FUTURE
reply; any other tag falls through every branch and returns normally. -/
def EndPoint.onMessage (methods : Methods) (selfName : String)
    (st : EndPointState) (msg : Option Envelope) : EndPointState × List Effect :=
  match msg with
  | none => (st, [])
  | some (.message p) => (st, [.userOnMessage p])
  | some (.future fid has r) =>
    if fid ∈ st.pendingIds then
      ({ st with pendingIds := removeId fid st.pendingIds,
                 futures := aset fid (if has then .result r else .failed r) st.futures },
       [])
    else (st, [.logWarning futureNotFoundMsg])
  | some (.call name args kwargs fid replyTo) =>
    let res : Bool × Val :=
      match methods name with
      | some f =>
        match f args kwargs with
        | .ok r => (true, r)
        | .error e => (false, e)
      | none => (false, .exc ("Endpoint " ++ selfName ++ " has not method " ++ name))
    let put := routerPut st replyTo (.future fid res.1 res.2)
    if put.2 then (put.1, []) else (put.1, [.logError futureResultFullMsg])
  | some .ping => (st, [])
  | some (.unknown _) => (st, [])

/-- State of one `SubProcess` worker: its endpoint state, `self._last_ping`,
and `self._watchdog_check_timeout` (instants and durations in seconds are
modelled as integer ticks: the claims use only their ordered additive
structure). -/
structure WorkerState where
  ep : EndPointState
  lastPing : ℤ
  watchdogCheckTimeout : ℤ
  deriving DecidableEq

/-- `SubProcess._on_message` (endpoint.py lines 151-155): any truthy inbound
message first refreshes `self._last_ping = time()`; every tag other than PING
is then handed to `EndPoint._on_message`. -/
def SubProcess.onMessage (methods : Methods) (selfName : String)
    (st : WorkerState) (msg : Option Envelope) (now : ℤ) :
    WorkerState × List Effect :=
  match msg with
  | none => (st, [])
  | some e =>
    let st1 : WorkerState := { st with lastPing := now }
    if e.tag = "PING" then (st1, [])
    else
      let base := EndPoint.onMessage methods selfName st1.ep (some e)
      ({ st1 with ep := base.1 }, base.2)

/-- Outcome of one `SubProcess._check_ping` run: stop the worker loop (after
the watchdog warning log) or reschedule itself. -/
inductive CheckPingResult where
  | stopLoop
  | reschedule (nextAt : ℤ)
  deriving DecidableEq

/-- `SubProcess._check_ping` (endpoint.py lines 157-162):
`if (time() - self._last_ping) >= self._watchdog_check_timeout` log and
`self.stop()`, else `self._ioloop.add_timeout(time() + 1.0, self._check_ping)`. -/
def SubProcess.checkPing (st : WorkerState) (now : ℤ) : CheckPingResult :=
  if st.watchdogCheckTimeout ≤ now - st.lastPing then .stopLoop
  else .reschedule (now + 1)

/-- The `watchdog_check_timeout=12.0` default of `SubProcess.__init__`. -/
def watchdogCheckTimeoutDefault : ℤ := 12

/-- `self._watchdog_check_timeout = getattr(config, 'watchdog_check_timeout',
watchdog_check_timeout)` in `SubProcess.__init__`: the config value when the
config defines one, the init parameter (default 12.0) otherwise. -/
def SubProcess.initWatchdogTimeout (configValue : Option ℤ) (paramDefault : ℤ) : ℤ :=
  configValue.getD paramDefault

/-- `SubProcess.start` line 128: `self._ioloop.add_timeout(time() +
self._watchdog_check_timeout, self._check_ping)` — the instant of the first
liveness check. -/
def SubProcess.startFirstCheckAt (now timeout : ℤ) : ℤ := now + timeout

/-- A bounded mailbox (`multiprocessing.Queue` channel of one endpoint). -/
structure Mailbox where
  contents : List Envelope
  cap : Nat
  deriving DecidableEq

/-- `channel.put(message, block=False)`: append when below capacity, report
`queue.Full` otherwise. -/
def channelPut (mb : Mailbox) (e : Envelope) : Mailbox × Bool :=
  if mb.contents.length < mb.cap then
    ({ mb with contents := mb.contents ++ [e] }, true)
  else (mb, false)

/-- The fields of `Service` that `_on_router` reads: the directory of
subprocess mailboxes (`self._subprocesses[name].channel`), the supervisor's
own fully-qualified class name (`fqc_name(self)`) and its own mailbox
(`self._channel`). -/
structure RouterView where
  subprocessChannels : List (String × Mailbox)
  ownName : String
  ownChannel : Mailbox
  deriving DecidableEq

/-- Where `_on_router` sends a given recipient name: the `if recipient in
self._subprocesses / elif recipient == fqc_name(self) / else` chain.  It is a
function of the directory and the name alone — it never takes the envelope. -/
inductive RouteTarget where
  | toSubprocess (name : String)
  | toSelf
  | unknownRecipient
  deriving DecidableEq

def routeTarget (rv : RouterView) (recipient : String) : RouteTarget :=
  if (alookup recipient rv.subprocessChannels).isSome then .toSubprocess recipient
  else if recipient = rv.ownName then .toSelf
  else .unknownRecipient

def mailboxFullMsg : String := "Cannot send message, its query is full"

def cannotRouteMsg : String := "Cannot route message"

/-- `Service._on_router` (\_\_init\_\_.py lines 141-158) applied to one popped
`(recipient, message)` pair: pick the channel by name, or warn and drop for an
unknown name; then `channel.put(message, block=False)`, warning and dropping
on `queue.Full`. -/
def Service.onRouter (rv : RouterView) (recipient : String) (e : Envelope) :
    RouterView × List Effect :=
  match alookup recipient rv.subprocessChannels with
  | some mb =>
    let put := channelPut mb e
    ({ rv with subprocessChannels := aset recipient put.1 rv.subprocessChannels },
     if put.2 then [] else [.logWarning mailboxFullMsg])
  | none =>
    if recipient = rv.ownName then
      let put := channelPut rv.ownChannel e
      ({ rv with ownChannel := put.1 },
       if put.2 then [] else [.logWarning mailboxFullMsg])
    else (rv, [.logWarning cannotRouteMsg])

/-- A `multiprocessing.Process` handle: its pid and `is_alive()`. -/
structure ProcHandle where
  procPid : Nat
  alive : Bool
  deriving DecidableEq

/-- One entry of `self._subprocesses`: the `ObjectDict(class_=…, process=…)`
record (the channel field plays no part in the modelled operations). -/
structure SubprocRecord where
  clsName : String
  procHandle : Option ProcHandle
  deriving DecidableEq

/-- The fields of `Service` that `stop` and `_create_process` touch:
`self._pid` (recorded at construction), `self._stopping`,
`self._subprocesses`, and whether `self._ioloop` is not None. -/
structure ServiceState where
  pid : Nat
  stopping : Bool
  subprocesses : List (String × SubprocRecord)
  ioloopOpen : Bool
  deriving DecidableEq

/-- The first statement of `Service.stop` under `if self._ioloop is not
None`: `self._stopping = True`. -/
def Service.stopSetFlag (st : ServiceState) : ServiceState :=
  { st with stopping := true }

/-- `Service.stop` (\_\_init\_\_.py lines 72-83): when the loop exists, set
the stopping flag, and — only when the current pid is the construction-time
pid — terminate and join every live child; then stop the loop.  The trailing
`self._stopping = False` runs unconditionally.  `currentPid` is `os.getpid()`
at call time. -/
def Service.stop (st : ServiceState) (currentPid : Nat) :
    ServiceState × List Effect :=
  if st.ioloopOpen then
    let st1 := Service.stopSetFlag st
    let subs2 :=
      if st1.pid = currentPid then
        st1.subprocesses.map (fun p =>
          (p.1, { p.2 with
                  procHandle := Option.map (fun h => { h with alive := false }) p.2.procHandle }))
      else st1.subprocesses
    let termEffs :=
      if st1.pid = currentPid then
        st1.subprocesses.filterMap (fun p =>
          p.2.procHandle.bind (fun h =>
            if h.alive then some (Effect.terminate h.procPid) else none))
      else []
    ({ st1 with subprocesses := subs2, stopping := false },
     termEffs ++ [.ioloopStop])
  else ({ st with stopping := false }, [])

/-- `Service._create_process` (\_\_init\_\_.py lines 85-116).  The whole body
is guarded by `if self._pid == os.getpid() and not self._stopping`; inside,
the class falls back to the recorded one, a missing class trips the assert, a
live same-name process is terminated and its record reset, and a fresh child
is forked (`newProc` is the handle `multiprocessing.Process` returns; its
`alive` field is `process.is_alive()` after `process.start()`). -/
def Service.createProcess (st : ServiceState) (currentPid : Nat) (name : String)
    (cls : Option String) (newProc : ProcHandle) : ServiceState × List Effect :=
  if st.pid = currentPid ∧ st.stopping = false then
    let cls1 : Option String :=
      match cls with
      | some c => some c
      | none => (alookup name st.subprocesses).map SubprocRecord.clsName
    match cls1 with
    | none => (st, [.assertFailed])
    | some c =>
      let subs1 :=
        match alookup name st.subprocesses with
        | none => aset name ⟨c, none⟩ st.subprocesses
        | some _ => st.subprocesses
      let killStep : List (String × SubprocRecord) × List Effect :=
        match alookup name subs1 with
        | some r =>
          match r.procHandle with
          | some p =>
            (aset name ⟨c, none⟩ subs1,
             if p.alive then [.terminate p.procPid] else [])
          | none => (subs1, [])
        | none => (subs1, [])
      if newProc.alive then
        ({ st with subprocesses := aset name ⟨c, some newProc⟩ killStep.1 },
         killStep.2 ++ [.spawnProcess name, .addRespawnHandler name])
      else
        ({ st with subprocesses := killStep.1 },
         killStep.2 ++ [.spawnProcess name, .logError "Cannot start subprocess"])
  else (st, [])

/-- A loaded Python module as an attribute table; `getattrMod` is
`getattr(module, name)` (`none` models AttributeError), and
`hasattr(module, name)` is `(getattrMod m name).isSome`. -/
structure PyModule where
  attrs : List (String × Val)
  deriving DecidableEq

def getattrMod (m : PyModule) (name : String) : Option Val :=
  alookup name m.attrs

/-- `ModuleConfig`: `self._default` is always a loaded module, `self._defined`
is a loaded module or None (configs.py lines 10-18). -/
structure ModuleConfig where
  defined : Option PyModule
  default : PyModule
  deriving DecidableEq

/-- `name.startswith('_')`: whether the first character is an underscore
(defined on the character list so that concrete instances evaluate). -/
def startsWithUnderscore (name : String) : Bool :=
  match name.data with
  | [] => false
  | c :: _ => c = '_'

/-- `ModuleConfig.__getattr__` (configs.py lines 20-26).  Names starting with
an underscore go to `self.__getattribute__` (modelled by `inst`).  Otherwise:
`if hasattr(self._defined, name): return getattr(self._defined, name);
return getattr(self._default, name)` — and `hasattr(None, name)` is False for
every name that does not start with an underscore, so a missing override
layer always falls through to the default layer. -/
def ModuleConfig.getattrFn (c : ModuleConfig) (inst : String → Option Val)
    (name : String) : Option Val :=
  if startsWithUnderscore name then inst name
  else
    match c.defined with
    | some m =>
      if (getattrMod m name).isSome then getattrMod m name
      else getattrMod c.default name
    | none => getattrMod c.default name

theorem mem_insertId_self (fid : FutureId) (l : List FutureId) :
    fid ∈ insertId fid l := by
  by_cases h : fid ∈ l <;> simp [insertId, h]

theorem not_mem_removeId_self (fid : FutureId) (l : List FutureId) :
    fid ∉ removeId fid l := by
  simp [removeId]

/-- Claim C10: a non-empty inbound envelope whose tag is none of MESSAGE,
FUTURE, CALL falls through every branch of `EndPoint._on_message`: the
dispatch returns normally, invokes no user hook or method, enqueues nothing
onto the router queue, and leaves the pending-call table unchanged. -/
theorem endpoint_unhandled_tag_noop (methods : Methods) (selfName : String)
    (st : EndPointState) (e : Envelope)
    (h1 : e.tag ≠ "MESSAGE") (h2 : e.tag ≠ "FUTURE") (h3 : e.tag ≠ "CALL") :
    EndPoint.onMessage methods selfName st (some e) = (st, []) := by
  cases e with
  | ping => rfl
  | unknown t => rfl
  | message p => exact absurd rfl h1
  | future fid has r => exact absurd rfl h2
  | call n a k fid rt => exact absurd rfl h3

theorem endpoint_unhandled_tag_noop_witness :
    EndPoint.onMessage (fun _ => none) "svc" ⟨[], [], [], 4⟩
      (some (.unknown "BOGUS")) = (⟨[], [], [], 4⟩, []) :=
  endpoint_unhandled_tag_noop (fun _ => none) "svc" ⟨[], [], [], 4⟩
    (.unknown "BOGUS") (by decide) (by decide) (by decide)

/-- Claim C9: for an attribute name not starting with an underscore, the
config lookup returns the override layer's value when that layer is present
and defines the name, and the default layer's value otherwise (override
absent, or present but not defining the name). -/
theorem config_layered_lookup (c : ModuleConfig) (inst : String → Option Val)
    (name : String) (h : startsWithUnderscore name = false) :
    (∀ m v, c.defined = some m → getattrMod m name = some v →
      ModuleConfig.getattrFn c inst name = some v) ∧
    (∀ m, c.defined = some m → getattrMod m name = none →
      ModuleConfig.getattrFn c inst name = getattrMod c.default name) ∧
    (c.defined = none →
      ModuleConfig.getattrFn c inst name = getattrMod c.default name) := by
  refine ⟨?_, ?_, ?_⟩
  · intro m v hm hv
    simp [ModuleConfig.getattrFn, h, hm, hv]
  · intro m hm hv
    simp [ModuleConfig.getattrFn, h, hm, hv]
  · intro hn
    simp [ModuleConfig.getattrFn, h, hn]

def cfgDefaultMod : PyModule := ⟨[("port", .num 80), ("host", .str "h")]⟩

def cfgOverrideMod : PyModule := ⟨[("port", .num 8080)]⟩

theorem config_layered_lookup_witness :
    ModuleConfig.getattrFn ⟨some cfgOverrideMod, cfgDefaultMod⟩ (fun _ => none)
        "port" = some (.num 8080) ∧
    ModuleConfig.getattrFn ⟨some cfgOverrideMod, cfgDefaultMod⟩ (fun _ => none)
        "host" = getattrMod cfgDefaultMod "host" ∧
    ModuleConfig.getattrFn ⟨none, cfgDefaultMod⟩ (fun _ => none)
        "port" = getattrMod cfgDefaultMod "port" := by
  have h1 := config_layered_lookup ⟨some cfgOverrideMod, cfgDefaultMod⟩
    (fun _ => none) "port" (by decide)
  have h2 := config_layered_lookup ⟨some cfgOverrideMod, cfgDefaultMod⟩
    (fun _ => none) "host" (by decide)
  have h3 := config_layered_lookup ⟨none, cfgDefaultMod⟩
    (fun _ => none) "port" (by decide)
  exact ⟨h1.1 cfgOverrideMod (.num 8080) rfl (by decide),
         h2.2.1 cfgOverrideMod rfl (by decide),
         h3.2.2 rfl⟩

/-- Claim C5: the first liveness check is scheduled `watchdog_check_timeout`
seconds after start (the timeout defaults to 12 when the config does not
define one); each run stops the worker loop when the elapsed time since
`last_ping` has reached the timeout, and otherwise reschedules itself one
second later. -/
theorem subprocess_watchdog_check (st : WorkerState) (now startTime : ℤ)
    (cfg : Option ℤ) :
    SubProcess.initWatchdogTimeout none watchdogCheckTimeoutDefault = 12 ∧
    SubProcess.startFirstCheckAt startTime
        (SubProcess.initWatchdogTimeout cfg watchdogCheckTimeoutDefault) =
      startTime + SubProcess.initWatchdogTimeout cfg watchdogCheckTimeoutDefault ∧
    (st.watchdogCheckTimeout ≤ now - st.lastPing →
      SubProcess.checkPing st now = .stopLoop) ∧
    (now - st.lastPing < st.watchdogCheckTimeout →
      SubProcess.checkPing st now = .reschedule (now + 1)) := by
  refine ⟨rfl, rfl, ?_, ?_⟩
  · intro h
    simp [SubProcess.checkPing, h]
  · intro h
    simp [SubProcess.checkPing, not_le.mpr h]

theorem subprocess_watchdog_check_witness :
    SubProcess.checkPing ⟨⟨[], [], [], 0⟩, 3, 12⟩ 15 = .stopLoop ∧
    SubProcess.checkPing ⟨⟨[], [], [], 0⟩, 3, 12⟩ 10 = .reschedule (10 + 1) :=
  ⟨(subprocess_watchdog_check ⟨⟨[], [], [], 0⟩, 3, 12⟩ 15 0 none).2.2.1 (by decide),
   (subprocess_watchdog_check ⟨⟨[], [], [], 0⟩, 3, 12⟩ 10 0 none).2.2.2 (by decide)⟩

/-- Claim C6: every truthy inbound envelope a worker dispatches — PING
included — sets `last_ping` to the current time; a PING does nothing beyond
that refresh: no user hook, no reply, no state change besides `last_ping`. -/
theorem worker_dispatch_refreshes_liveness (methods : Methods)
    (selfName : String) (st : WorkerState) (e : Envelope) (now : ℤ) :
    (SubProcess.onMessage methods selfName st (some e) now).1.lastPing = now ∧
    (e.tag = "PING" →
      SubProcess.onMessage methods selfName st (some e) now =
        ({ st with lastPing := now }, [])) := by
  constructor
  · by_cases h : e.tag = "PING" <;> simp [SubProcess.onMessage, h]
  · intro h
    simp [SubProcess.onMessage, h]

theorem worker_dispatch_refreshes_liveness_witness :
    SubProcess.onMessage (fun _ => none) "wrk" ⟨⟨[], [], [], 0⟩, 3, 12⟩
        (some .ping) 9 = (⟨⟨[], [], [], 0⟩, 9, 12⟩, []) :=
  (worker_dispatch_refreshes_liveness (fun _ => none) "wrk"
    ⟨⟨[], [], [], 0⟩, 3, 12⟩ .ping 9).2 rfl

/-- Claim C3: dispatching an inbound CALL when the router queue has room —
a method that exists and returns normally yields a `FUTURE(id, true, result)`
reply enqueued to `reply_to`; a missing method or a raised error yields a
`FUTURE(id, false, error)` reply; the raised error never escapes (in every
case the dispatch returns normally, with the error captured as the reply
value). -/
theorem call_dispatch_replies (methods : Methods) (selfName : String)
    (st : EndPointState) (name : String) (args : List Val)
    (kwargs : List (String × Val)) (fid : FutureId) (replyTo : String)
    (hroom : st.routerQ.length < st.routerCap) :
    (∀ f r, methods name = some f → f args kwargs = .ok r →
      EndPoint.onMessage methods selfName st
          (some (.call name args kwargs fid replyTo)) =
        ({ st with routerQ := st.routerQ ++ [(replyTo, .future fid true r)] },
         [])) ∧
    (∀ f e, methods name = some f → f args kwargs = .error e →
      EndPoint.onMessage methods selfName st
          (some (.call name args kwargs fid replyTo)) =
        ({ st with routerQ := st.routerQ ++ [(replyTo, .future fid false e)] },
         [])) ∧
    (methods name = none →
      EndPoint.onMessage methods selfName st
          (some (.call name args kwargs fid replyTo)) =
        ({ st with routerQ := st.routerQ ++
            [(replyTo, .future fid false
              (.exc ("Endpoint " ++ selfName ++ " has not method " ++ name)))] },
         [])) := by
  refine ⟨?_, ?_, ?_⟩
  · intro f r hf hr
    simp [EndPoint.onMessage, routerPut, hf, hr, hroom]
  · intro f e hf he
    simp [EndPoint.onMessage, routerPut, hf, he, hroom]
  · intro hn
    simp [EndPoint.onMessage, routerPut, hn, hroom]

def demoMethods : Methods := fun name =>
  if name = "ok" then some (fun _ _ => .ok (.num 1))
  else if name = "boom" then some (fun _ _ => .error (.exc "boom"))
  else none

theorem call_dispatch_replies_witness :
    EndPoint.onMessage demoMethods "wrk" ⟨[], [], [], 3⟩
        (some (.call "ok" [] [] (5, 7) "svc")) =
      (⟨[], [], [("svc", .future (5, 7) true (.num 1))], 3⟩, []) ∧
    EndPoint.onMessage demoMethods "wrk" ⟨[], [], [], 3⟩
        (some (.call "boom" [] [] (5, 7) "svc")) =
      (⟨[], [], [("svc", .future (5, 7) false (.exc "boom"))], 3⟩, []) ∧
    EndPoint.onMessage demoMethods "wrk" ⟨[], [], [], 3⟩
        (some (.call "nope" [] [] (5, 7) "svc")) =
      (⟨[], [], [("svc", .future (5, 7) false
          (.exc ("Endpoint " ++ "wrk" ++ " has not method " ++ "nope")))], 3⟩,
       []) := by
  have hok := call_dispatch_replies demoMethods "wrk" ⟨[], [], [], 3⟩ "ok"
    [] [] (5, 7) "svc" (by decide)
  have hbm := call_dispatch_replies demoMethods "wrk" ⟨[], [], [], 3⟩ "boom"
    [] [] (5, 7) "svc" (by decide)
  have hnp := call_dispatch_replies demoMethods "wrk" ⟨[], [], [], 3⟩ "nope"
    [] [] (5, 7) "svc" (by decide)
  exact ⟨hok.1 (fun _ _ => .ok (.num 1)) (.num 1) rfl rfl,
         hbm.2.1 (fun _ _ => .error (.exc "boom")) (.exc "boom") rfl rfl,
         hnp.2.2 rfl⟩

theorem channelPut_accepted_independent (mb : Mailbox) (e e2 : Envelope) :
    (channelPut mb e).2 = (channelPut mb e2).2 := by
  by_cases h : mb.contents.length < mb.cap <;> simp [channelPut, h]

/-- Claim C4: the router's decision for a popped `(recipient, envelope)` pair
is a function of the recipient name alone (same effects for any two
envelopes); a recipient in the directory gets the envelope offered to its
mailbox — logged and dropped when that mailbox is full; a recipient equal to
the supervisor's own fully-qualified class name gets it offered to the
supervisor's own mailbox; any other recipient is logged and dropped. -/
theorem router_routes_by_name (rv : RouterView) (recipient : String)
    (e : Envelope) :
    (∀ e2, (Service.onRouter rv recipient e).2 =
      (Service.onRouter rv recipient e2).2) ∧
    (∀ mb, alookup recipient rv.subprocessChannels = some mb →
      routeTarget rv recipient = .toSubprocess recipient ∧
      Service.onRouter rv recipient e =
        ({ rv with subprocessChannels := aset recipient (channelPut mb e).1 rv.subprocessChannels },
         if (channelPut mb e).2 then [] else [.logWarning mailboxFullMsg])) ∧
    (alookup recipient rv.subprocessChannels = none → recipient = rv.ownName →
      routeTarget rv recipient = .toSelf ∧
      Service.onRouter rv recipient e =
        ({ rv with ownChannel := (channelPut rv.ownChannel e).1 },
         if (channelPut rv.ownChannel e).2 then []
         else [.logWarning mailboxFullMsg])) ∧
    (alookup recipient rv.subprocessChannels = none → recipient ≠ rv.ownName →
      routeTarget rv recipient = .unknownRecipient ∧
      Service.onRouter rv recipient e = (rv, [.logWarning cannotRouteMsg])) := by
  refine ⟨?_, ?_, ?_, ?_⟩
  · intro e2
    cases hl : alookup recipient rv.subprocessChannels with
    | some mb =>
      have hcc := channelPut_accepted_independent mb e e2
      simp [Service.onRouter, hl, hcc]
    | none =>
      by_cases ho : recipient = rv.ownName
      · subst ho
        have hcc := channelPut_accepted_independent rv.ownChannel e e2
        simp [Service.onRouter, hl, hcc]
      · simp [Service.onRouter, hl, ho]
  · intro mb hl
    exact ⟨by simp [routeTarget, hl], by simp [Service.onRouter, hl]⟩
  · intro hl ho
    subst ho
    exact ⟨by simp [routeTarget, hl], by simp [Service.onRouter, hl]⟩
  · intro hl ho
    exact ⟨by simp [routeTarget, hl, ho], by simp [Service.onRouter, hl, ho]⟩

theorem router_routes_by_name_witness :
    Service.onRouter ⟨[("wrk", ⟨[], 2⟩)], "svc", ⟨[], 2⟩⟩ "wrk" .ping =
      (⟨[("wrk", ⟨[.ping], 2⟩)], "svc", ⟨[], 2⟩⟩, []) ∧
    Service.onRouter ⟨[("wrk", ⟨[], 2⟩)], "svc", ⟨[], 2⟩⟩ "svc" .ping =
      (⟨[("wrk", ⟨[], 2⟩)], "svc", ⟨[.ping], 2⟩⟩, []) ∧
    Service.onRouter ⟨[("wrk", ⟨[], 2⟩)], "svc", ⟨[], 2⟩⟩ "ghost" .ping =
      (⟨[("wrk", ⟨[], 2⟩)], "svc", ⟨[], 2⟩⟩, [.logWarning cannotRouteMsg]) := by
  have h1 := router_routes_by_name ⟨[("wrk", ⟨[], 2⟩)], "svc", ⟨[], 2⟩⟩ "wrk" .ping
  have h2 := router_routes_by_name ⟨[("wrk", ⟨[], 2⟩)], "svc", ⟨[], 2⟩⟩ "svc" .ping
  have h3 := router_routes_by_name ⟨[("wrk", ⟨[], 2⟩)], "svc", ⟨[], 2⟩⟩ "ghost" .ping
  refine ⟨?_, ?_, (h3.2.2.2 (by decide) (by decide)).2⟩
  · have := (h1.2.1 ⟨[], 2⟩ (by decide)).2
    simpa [channelPut, aset] using this
  · have := (h2.2.2.1 (by decide) rfl).2
    simpa [channelPut] using this

/-- Claim C1: when the CALL is accepted onto the router queue, `remote_call`
enqueues a CALL carrying the generated `call_id` and leaves a pending slot
under that id; a dispatched CALL is answered by a FUTURE carrying the same
id; delivering a FUTURE whose id has a pending slot resolves that future and
removes the slot, and a FUTURE arriving after the slot was removed changes
nothing and is discarded with a warning — so the future is resolved exactly
once. -/
theorem call_future_resolved_exactly_once (methods : Methods)
    (selfName recipient method : String) (args : List Val)
    (kwargs : List (String × Val)) (fid : FutureId) (st : EndPointState)
    (hroom : st.routerQ.length < st.routerCap) :
    ((EndPoint.remote_call st selfName recipient method args kwargs fid).1.routerQ =
      st.routerQ ++ [(recipient, .call method args kwargs fid selfName)]) ∧
    (fid ∈ (EndPoint.remote_call st selfName recipient method args kwargs fid).1.pendingIds) ∧
    (∀ stc : EndPointState, stc.routerQ.length < stc.routerCap →
      ∃ has r, (EndPoint.onMessage methods recipient stc
          (some (.call method args kwargs fid selfName))).1.routerQ =
        stc.routerQ ++ [(selfName, .future fid has r)]) ∧
    (∀ st1 : EndPointState, fid ∈ st1.pendingIds → ∀ has r,
      (alookup fid (EndPoint.onMessage methods selfName st1
          (some (.future fid has r))).1.futures =
        some (if has then .result r else .failed r)) ∧
      (fid ∉ (EndPoint.onMessage methods selfName st1
          (some (.future fid has r))).1.pendingIds) ∧
      (∀ has2 r2,
        EndPoint.onMessage methods selfName
            (EndPoint.onMessage methods selfName st1 (some (.future fid has r))).1
            (some (.future fid has2 r2)) =
          ((EndPoint.onMessage methods selfName st1 (some (.future fid has r))).1,
           [.logWarning futureNotFoundMsg]))) := by
  refine ⟨?_, ?_, ?_, ?_⟩
  · simp [EndPoint.remote_call, routerPut, hroom]
  · simp [EndPoint.remote_call, routerPut, hroom, mem_insertId_self]
  · intro stc hc
    cases hm : methods method with
    | none =>
      exact ⟨false, .exc ("Endpoint " ++ recipient ++ " has not method " ++ method),
        by simp [EndPoint.onMessage, routerPut, hm, hc]⟩
    | some f =>
      cases hr : f args kwargs with
      | ok r => exact ⟨true, r, by simp [EndPoint.onMessage, routerPut, hm, hr, hc]⟩
      | error e2 => exact ⟨false, e2, by simp [EndPoint.onMessage, routerPut, hm, hr, hc]⟩
  · intro st1 hp has r
    refine ⟨?_, ?_, ?_⟩
    · simp [EndPoint.onMessage, hp, alookup_aset_self]
    · simp [EndPoint.onMessage, hp, not_mem_removeId_self]
    · intro has2 r2
      have hinner : (EndPoint.onMessage methods selfName st1
          (some (.future fid has r))).1 =
          { st1 with pendingIds := removeId fid st1.pendingIds,
                     futures := aset fid (if has then .result r else .failed r) st1.futures } := by
        simp [EndPoint.onMessage, hp]
      rw [hinner]
      simp [EndPoint.onMessage, not_mem_removeId_self]

theorem call_future_resolved_exactly_once_witness :
    alookup (5, 7) ((EndPoint.onMessage (fun _ => none) "svc"
        (EndPoint.remote_call ⟨[], [], [], 1⟩ "svc" "wrk" "m" [] [] (5, 7)).1
        (some (.future (5, 7) true (.num 3)))).1.futures) =
      some (.result (.num 3)) := by
  have h := call_future_resolved_exactly_once (fun _ => none) "svc" "wrk" "m"
    [] [] (5, 7) ⟨[], [], [], 1⟩ (by decide)
  exact (h.2.2.2 _ (by decide) true (.num 3)).1

/-- Claim C2 counterexample: with a full router queue (capacity 0),
`remote_call` resolves the returned future with the transport error, but the
pending slot for the generated call id is NOT removed from the pending-call
table — the id is still among the pending keys. -/
theorem remote_call_full_slot_not_removed_cex :
    (alookup (1, 2) (EndPoint.remote_call ⟨[], [], [], 0⟩ "svc" "wrk" "m"
        [] [] (1, 2)).1.futures = some (.failed queueFullExc)) ∧
    ((1, 2) ∈ (EndPoint.remote_call ⟨[], [], [], 0⟩ "svc" "wrk" "m"
        [] [] (1, 2)).1.pendingIds) := by
  decide

/-- Claim C2 (amended): when the enqueue onto the router queue fails, the
returned future is resolved immediately with the transport-error descriptor
and the failure is logged, but the pending slot for the call id REMAINS in
the endpoint's pending-call table (the code never deletes it); no CALL
envelope reaches the router queue. -/
theorem remote_call_full_fails_future_keeps_slot (st : EndPointState)
    (selfName recipient method : String) (args : List Val)
    (kwargs : List (String × Val)) (fid : FutureId)
    (hfull : ¬ st.routerQ.length < st.routerCap) :
    (alookup fid (EndPoint.remote_call st selfName recipient method args
        kwargs fid).1.futures = some (.failed queueFullExc)) ∧
    (fid ∈ (EndPoint.remote_call st selfName recipient method args
        kwargs fid).1.pendingIds) ∧
    ((EndPoint.remote_call st selfName recipient method args kwargs fid).1.routerQ =
      st.routerQ) ∧
    ((EndPoint.remote_call st selfName recipient method args kwargs fid).2 =
      [.logError remoteCallFullMsg]) := by
  refine ⟨?_, ?_, ?_, ?_⟩ <;>
    simp [EndPoint.remote_call, routerPut, hfull, alookup_aset_self,
      mem_insertId_self]

theorem remote_call_full_fails_future_keeps_slot_witness :
    (alookup (8, 9) (EndPoint.remote_call ⟨[], [], [], 0⟩ "s2" "w2" "m2"
        [] [] (8, 9)).1.futures = some (.failed queueFullExc)) ∧
    ((8, 9) ∈ (EndPoint.remote_call ⟨[], [], [], 0⟩ "s2" "w2" "m2"
        [] [] (8, 9)).1.pendingIds) := by
  have h := remote_call_full_fails_future_keeps_slot ⟨[], [], [], 0⟩ "s2" "w2"
    "m2" [] [] (8, 9) (by decide)
  exact ⟨h.1, h.2.1⟩

/-- Claim C8: while the stopping flag is set `_create_process` is a no-op —
same state back, no spawn, no directory change; `stop` begins (when a loop
exists) by setting the stopping flag; and a child process is terminated —
whether by `stop` or by the restart path of `_create_process` — only when
the calling process's pid equals the pid recorded at construction. -/
theorem stopping_guard_only_original_terminates (st : ServiceState)
    (currentPid : Nat) (name : String) (cls : Option String)
    (newProc : ProcHandle) :
    (st.stopping = true →
      Service.createProcess st currentPid name cls newProc = (st, [])) ∧
    ((Service.stopSetFlag st).stopping = true) ∧
    (∀ q, Effect.terminate q ∈ (Service.stop st currentPid).2 →
      currentPid = st.pid) ∧
    (∀ q, Effect.terminate q ∈
        (Service.createProcess st currentPid name cls newProc).2 →
      currentPid = st.pid) := by
  refine ⟨?_, rfl, ?_, ?_⟩
  · intro h
    simp [Service.createProcess, h]
  · intro q hq
    by_cases hio : st.ioloopOpen
    · by_cases hp : st.pid = currentPid
      · exact hp.symm
      · simp [Service.stop, Service.stopSetFlag, hio, hp] at hq
    · simp [Service.stop, hio] at hq
  · intro q hq
    by_cases hg : st.pid = currentPid ∧ st.stopping = false
    · exact hg.1.symm
    · simp [Service.createProcess, hg] at hq

theorem stopping_guard_only_original_terminates_witness :
    (Service.createProcess ⟨44, true, [], true⟩ 44 "w" (some "W") ⟨9, true⟩ =
      (⟨44, true, [], true⟩, [])) ∧
    ((Service.stopSetFlag ⟨44, false, [], true⟩).stopping = true) ∧
    ((44 : Nat) = 44) := by
  have h1 := stopping_guard_only_original_terminates ⟨44, true, [], true⟩ 44
    "w" (some "W") ⟨9, true⟩
  have h2 := stopping_guard_only_original_terminates
    ⟨44, false, [("w", ⟨"W", some ⟨9, true⟩⟩)], true⟩ 44 "w" (some "W") ⟨9, true⟩
  exact ⟨h1.1 rfl, stopping_guard_only_original_terminates ⟨44, false, [], true⟩
    44 "w" (some "W") ⟨9, true⟩ |>.2.1, h2.2.2.1 9 (by decide)⟩
